import Mathlib

/-!
Verification of `depthai_sdk/previews.py`: the `PreviewDecoder` frame-decoding
dispatch functions and the `MouseClickTracker` point/value tracker.

Modelling conventions:
* A grayscale/raw pixel buffer is a list of rows of natural-number samples.
* A `Packet` (`depthai.ImgFrame`) is opaque; the external decode primitives
  (`packet.getCvFrame()`, `packet.getFrame()`, `cv2.imdecode(packet.getData(), flag)`)
  are deterministic functions of the packet payload, so the packet record
  carries their results directly as fields.
* The `PreviewManager` object (`manager` argument) is modelled by the record
  of the attributes the decoders read.  Attributes read through
  `getattr(manager, attr, default)` may be absent and are `Option`-valued.
* `cv2.flip(frame, 1)` (horizontal mirror) reverses every row.
* Python float arithmetic is modelled over `ℚ`; the only transcendental
  computation, `math.tan(math.radians(fov / 2))`, is modelled by an opaque
  function parameter `tanHalfDeg : ℚ → ℚ`.
* `numpy` division by zero does not raise (the code wraps it in
  `np.errstate(divide=ignore)`); it produces a non-finite value whose cast
  to `uint8` is platform defined, modelled by an opaque parameter `sent`.
* `cv2.applyColorMap` maps each `uint8` sample to a 3-channel pixel through
  a selected color map; it is modelled by an opaque parameter
  `cmapF : Nat → Nat → Nat × Nat × Nat` (color-map id, then sample).
-/

/-- A 2D single-channel pixel buffer: a list of rows of samples. -/
abbrev GFrame := List (List Nat)

/-- A 3-channel pixel buffer, as produced by `cv2.applyColorMap`. -/
abbrev CFrame := List (List (Nat × Nat × Nat))

/-- A raw data packet (`depthai.ImgFrame`).  `cvFrame` is the result of
`packet.getCvFrame()`, `rawFrame` of `packet.getFrame()`, `decColor` of
`cv2.imdecode(packet.getData(), cv2.IMREAD_COLOR)` and `decGray` of
`cv2.imdecode(packet.getData(), cv2.IMREAD_GRAYSCALE)`. -/
structure Packet where
  cvFrame : GFrame
  rawFrame : GFrame
  decColor : GFrame
  decGray : GFrame
  deriving DecidableEq, Repr

/-- The attributes of `depthai_sdk.managers.PreviewManager` read by the
decoders.  `baseline`, `fov`, `focal` and `dispScaleFactor` are read with
`getattr(manager, attr, default)`, so they may be absent (`none`). -/
structure PreviewManager where
  lowBandwidth : Bool := false
  sync : Bool := false
  baseline : Option ℚ := none
  fov : Option ℚ := none
  focal : Option ℚ := none
  dispScaleFactor : Option ℚ := none
  dispMultiplier : ℚ := 255 / 96
  colorMap : Nat := 2
  deriving DecidableEq, Repr

/-- `cv2.flip(frame, 1)`: horizontal mirror, reversing each row. -/
def hflip (fr : GFrame) : GFrame := fr.map List.reverse

namespace PreviewDecoder

/-- `PreviewDecoder.color`:
`if manager is not None and manager.lowBandwidth and not manager.sync:
   return cv2.imdecode(packet.getData(), cv2.IMREAD_COLOR)
 else: return packet.getCvFrame()`. -/
def color (packet : Packet) (manager : Option PreviewManager) : GFrame :=
  match manager with
  | some m => if m.lowBandwidth && !m.sync then packet.decColor else packet.cvFrame
  | none => packet.cvFrame

/-- `PreviewDecoder.left`:
`if manager is not None and manager.lowBandwidth and not manager.sync:
   return cv2.imdecode(packet.getData(), cv2.IMREAD_GRAYSCALE)
 else: return packet.getCvFrame()`. -/
def left (packet : Packet) (manager : Option PreviewManager) : GFrame :=
  match manager with
  | some m => if m.lowBandwidth && !m.sync then packet.decGray else packet.cvFrame
  | none => packet.cvFrame

/-- `PreviewDecoder.right`: identical body to `PreviewDecoder.left`. -/
def right (packet : Packet) (manager : Option PreviewManager) : GFrame :=
  match manager with
  | some m => if m.lowBandwidth && !m.sync then packet.decGray else packet.cvFrame
  | none => packet.cvFrame

/-- `PreviewDecoder.rectified_left`:
`if manager is not None and manager.lowBandwidth and not manager.sync:
   return cv2.flip(cv2.imdecode(packet.getData(), cv2.IMREAD_GRAYSCALE), 1)
 else: return cv2.flip(packet.getCvFrame(), 1)`. -/
def rectified_left (packet : Packet) (manager : Option PreviewManager) : GFrame :=
  match manager with
  | some m =>
      if m.lowBandwidth && !m.sync then hflip packet.decGray else hflip packet.cvFrame
  | none => hflip packet.cvFrame

/-- `PreviewDecoder.rectified_right`:
`if manager is not None and manager.lowBandwidth:
   return cv2.flip(cv2.imdecode(packet.getData(), cv2.IMREAD_GRAYSCALE), 1)
 else: return cv2.flip(packet.getCvFrame(), 1)`.
Note: unlike the other decoders, the condition does not test `manager.sync`. -/
def rectified_right (packet : Packet) (manager : Option PreviewManager) : GFrame :=
  match manager with
  | some m => if m.lowBandwidth then hflip packet.decGray else hflip packet.cvFrame
  | none => hflip packet.cvFrame

end PreviewDecoder

/-- The compressed-branch condition shared by `color`, `left`, `right` and
`rectified_left`: a manager is supplied, its low-bandwidth flag is set and its
sync flag is unset. -/
def lowBandwidthNoSync : Option PreviewManager → Bool
  | some m => m.lowBandwidth && !m.sync
  | none => false

/-- The compressed-branch condition of `rectified_right`: a manager is
supplied and its low-bandwidth flag is set (the sync flag is ignored). -/
def lowBandwidthOnly : Option PreviewManager → Bool
  | some m => m.lowBandwidth
  | none => false

/-- Concrete packet whose native buffer differs from its decoded grayscale
data, used to separate the two branches of the decoders. -/
def packetNE : Packet :=
  { cvFrame := [[1, 2]], rawFrame := [[3, 4]], decColor := [[5, 6]], decGray := [[7, 8]] }

/-- Concrete manager with low-bandwidth and sync both set. -/
def mgrLBSync : PreviewManager := { lowBandwidth := true, sync := true }

/-- Claim C1 (counterexample): with a config whose low-bandwidth and sync
flags are both set, `rectified_right` takes the compressed branch while
`right` takes the native branch, so on a packet whose decoded grayscale data
differs from its native buffer the `rectified_right` output is not the
horizontal mirror of the `right` output. -/
theorem rectified_right_not_mirror_cex :
    PreviewDecoder.rectified_right packetNE (some mgrLBSync) ≠
      hflip (PreviewDecoder.right packetNE (some mgrLBSync)) := by
  decide

/-- Claim C1 (amended): for every packet and config, the `rectified_left`
output equals the horizontal mirror of the `left` output; the
`rectified_right` output equals the horizontal mirror of the `right` output
for every config that does not have both the low-bandwidth flag and the sync
flag set (in particular whenever the config is absent). -/
theorem rectified_mirror_amended (p : Packet) (m : Option PreviewManager) :
    PreviewDecoder.rectified_left p m = hflip (PreviewDecoder.left p m) ∧
    ((∀ mm, m = some mm → ¬(mm.lowBandwidth = true ∧ mm.sync = true)) →
      PreviewDecoder.rectified_right p m = hflip (PreviewDecoder.right p m)) := by
  constructor
  · cases m with
    | none => rfl
    | some mm =>
        by_cases h : mm.lowBandwidth && !mm.sync <;>
          simp [PreviewDecoder.rectified_left, PreviewDecoder.left, h]
  · intro hm
    cases m with
    | none => rfl
    | some mm =>
        have h := hm mm rfl
        cases hlb : mm.lowBandwidth with
        | false =>
            simp [PreviewDecoder.rectified_right, PreviewDecoder.right, hlb]
        | true =>
            cases hs : mm.sync with
            | false =>
                simp [PreviewDecoder.rectified_right, PreviewDecoder.right, hlb, hs]
            | true => exact absurd ⟨hlb, hs⟩ h

/-- Claim C1 (witness): the amended theorem applied to the concrete packet
`packetNE` and a concrete config with low-bandwidth set but sync unset. -/
theorem rectified_mirror_amended_witness :
    PreviewDecoder.rectified_left packetNE (some { lowBandwidth := true }) =
      hflip (PreviewDecoder.left packetNE (some { lowBandwidth := true })) ∧
    PreviewDecoder.rectified_right packetNE (some { lowBandwidth := true }) =
      hflip (PreviewDecoder.right packetNE (some { lowBandwidth := true })) :=
  ⟨(rectified_mirror_amended packetNE (some { lowBandwidth := true })).1,
   (rectified_mirror_amended packetNE (some { lowBandwidth := true })).2
     (by intro mm h; cases h; simp)⟩

/-- Claim C2: the `color`, `left` and `right` decoders take the
compressed-decode branch (color decode for `color`, grayscale decode for
`left`/`right`) exactly when a config is supplied with the low-bandwidth flag
set and the sync flag unset; in every other case they return the packet's
native pixel buffer `getCvFrame()`. -/
theorem compressed_branch_iff (p : Packet) (m : Option PreviewManager) :
    PreviewDecoder.color p m =
      (if lowBandwidthNoSync m then p.decColor else p.cvFrame) ∧
    PreviewDecoder.left p m =
      (if lowBandwidthNoSync m then p.decGray else p.cvFrame) ∧
    PreviewDecoder.right p m =
      (if lowBandwidthNoSync m then p.decGray else p.cvFrame) := by
  cases m with
  | none => exact ⟨rfl, rfl, rfl⟩
  | some mm =>
      refine ⟨?_, ?_, ?_⟩ <;>
        by_cases h : mm.lowBandwidth && !mm.sync <;>
          simp [PreviewDecoder.color, PreviewDecoder.left, PreviewDecoder.right,
            lowBandwidthNoSync, h]

/-- Claim C3: `rectified_right` selects its compressed branch from the
low-bandwidth flag alone, while `rectified_left` requires low-bandwidth set
and sync unset; consequently, on a config with both flags set,
`rectified_right` returns the mirrored compressed decode while
`rectified_left` returns the mirrored native buffer. -/
theorem rectified_asymmetry :
    (∀ (p : Packet) (m : Option PreviewManager),
      PreviewDecoder.rectified_right p m =
        (if lowBandwidthOnly m then hflip p.decGray else hflip p.cvFrame)) ∧
    (∀ (p : Packet) (m : Option PreviewManager),
      PreviewDecoder.rectified_left p m =
        (if lowBandwidthNoSync m then hflip p.decGray else hflip p.cvFrame)) ∧
    PreviewDecoder.rectified_right packetNE (some mgrLBSync) = hflip packetNE.decGray ∧
    PreviewDecoder.rectified_left packetNE (some mgrLBSync) = hflip packetNE.cvFrame := by
  refine ⟨?_, ?_, by decide, by decide⟩
  · intro p m
    cases m with
    | none => rfl
    | some mm =>
        by_cases h : mm.lowBandwidth <;>
          simp [PreviewDecoder.rectified_right, lowBandwidthOnly, h]
  · intro p m
    cases m with
    | none => rfl
    | some mm =>
        by_cases h : mm.lowBandwidth && !mm.sync <;>
          simp [PreviewDecoder.rectified_left, lowBandwidthNoSync, h]

/-- Truncation of a rational toward zero, as the C cast behind
`numpy.ndarray.astype` does for finite floats. -/
def ratTruncToZero (q : ℚ) : Int := if 0 ≤ q then Rat.floor q else -Rat.floor (-q)

/-- `astype(np.uint8)` on a finite value: truncate toward zero and wrap
modulo 256. -/
def uint8Cast (q : ℚ) : Nat := (Int.emod (ratTruncToZero q) 256).toNat

/-- `frame.shape[1]` of a 2D buffer: the number of columns. -/
def frameWidth (fr : GFrame) : Nat := (fr.headD []).length

namespace PreviewDecoder

/-- `PreviewDecoder.disparity_color`:
`return cv2.applyColorMap(disparity, manager.colorMap if manager is not None
else cv2.COLORMAP_JET)` (`cv2.COLORMAP_JET = 2`).  `cmapF` models
`cv2.applyColorMap` one sample at a time: color-map id, then sample. -/
def disparity_color (cmapF : Nat → Nat → Nat × Nat × Nat) (disparity : GFrame)
    (manager : Option PreviewManager) : CFrame :=
  disparity.map (List.map (cmapF (match manager with
    | some m => m.colorMap
    | none => 2)))

/-- `PreviewDecoder.disparity`:
`raw_frame = cv2.imdecode(packet.getData(), cv2.IMREAD_GRAYSCALE) if
(manager is not None and manager.lowBandwidth) else packet.getFrame();
return (raw_frame * (manager.dispMultiplier if manager is not None else
255/96)).astype(np.uint8)`. -/
def disparity (packet : Packet) (manager : Option PreviewManager) : GFrame :=
  let raw_frame := match manager with
    | some m => if m.lowBandwidth then packet.decGray else packet.rawFrame
    | none => packet.rawFrame
  let mult : ℚ := match manager with
    | some m => m.dispMultiplier
    | none => 255 / 96
  raw_frame.map (List.map fun (v : Nat) => uint8Cast ((v : ℚ) * mult))

/-- One sample of `(dispScaleFactor / depth_raw * dispMultiplier).astype(np.uint8)`:
division by a zero sample produces a non-finite value (tolerated under
`np.errstate(divide=ignore)`) whose `uint8` cast is the platform-defined
`sent`; a nonzero sample divides and casts normally. -/
def divScaleCast (sent : Nat) (dsf mult : ℚ) (v : Nat) : Nat :=
  if v = 0 then sent else uint8Cast (dsf / (v : ℚ) * mult)

/-- The error raised by `manager.dispMultiplier` when `manager` is `None`. -/
def attrErrMsg : String := "AttributeError: NoneType object has no attribute dispMultiplier"

/-- `PreviewDecoder.depth`: reads `getattr(manager, "dispScaleFactor", None)`;
if absent, computes `baseline * focal` from `getattr` defaults
(`baseline` 75, `fov` 71.86, `focal` `depth_raw.shape[1] / (2 * tan(radians(fov / 2)))`)
and, when a manager is present, stores it with
`setattr(manager, "dispScaleFactor", dispScaleFactor)`.  Then
`disp_frame = dispScaleFactor / depth_raw` (divide-by-zero ignored),
`disp_frame = (disp_frame * manager.dispMultiplier).astype(np.uint8)` —
an `AttributeError` when `manager` is `None` — and finally
`PreviewDecoder.disparity_color(disp_frame, manager)`.  Returns the produced
frame together with the possibly mutated manager. -/
def depth (tanHalfDeg : ℚ → ℚ) (sent : Nat) (cmapF : Nat → Nat → Nat × Nat × Nat)
    (depth_raw : GFrame) (manager : Option PreviewManager) :
    Except String (CFrame × Option PreviewManager) :=
  match (match manager with
    | some m => m.dispScaleFactor
    | none => none : Option ℚ) with
  | some dsf =>
      match manager with
      | some m =>
          .ok (disparity_color cmapF
            (depth_raw.map (List.map (divScaleCast sent dsf m.dispMultiplier))) (some m),
            some m)
      | none => .error attrErrMsg
  | none =>
      let baseline : ℚ := (match manager with
        | some m => m.baseline
        | none => none).getD 75
      let fov : ℚ := (match manager with
        | some m => m.fov
        | none => none).getD (7186 / 100)
      let focal : ℚ := (match manager with
        | some m => m.focal
        | none => none).getD ((frameWidth depth_raw : ℚ) / (2 * tanHalfDeg fov))
      let dsf := baseline * focal
      match manager with
      | some m =>
          let mm := { m with dispScaleFactor := some dsf }
          .ok (disparity_color cmapF
            (depth_raw.map (List.map (divScaleCast sent dsf mm.dispMultiplier))) (some mm),
            some mm)
      | none => .error attrErrMsg

end PreviewDecoder

/-- The disparity multiplier the `disparity` decoder uses:
`manager.dispMultiplier` when a manager is supplied, else `255/96`. -/
def dispMultOf : Option PreviewManager → ℚ
  | some m => m.dispMultiplier
  | none => 255 / 96

/-- Claim C5: the `disparity` decoder takes the packet's 8-bit grayscale
array — the compressed grayscale decode when a config with the low-bandwidth
flag is supplied, the native raw buffer `getFrame()` otherwise — multiplies
each sample by the configured disparity multiplier (default `255/96` with no
config) and truncates to 8-bit unsigned integers. -/
theorem disparity_spec (p : Packet) (m : Option PreviewManager) :
    PreviewDecoder.disparity p m =
      (if lowBandwidthOnly m then p.decGray else p.rawFrame).map
        (List.map fun (v : Nat) => uint8Cast ((v : ℚ) * dispMultOf m)) := by
  cases m with
  | none => rfl
  | some mm =>
      by_cases h : mm.lowBandwidth <;>
        simp [PreviewDecoder.disparity, lowBandwidthOnly, dispMultOf, h]

/-- The scale factor `depth` computes on a cache miss: `baseline * focal`
with the `getattr` defaults of the source (`baseline` 75, `fov` 71.86,
`focal` `width / (2 * tan(radians(fov / 2)))`). -/
def computedScaleFactor (tanHalfDeg : ℚ → ℚ) (depth_raw : GFrame)
    (m : PreviewManager) : ℚ :=
  m.baseline.getD 75 *
    m.focal.getD ((frameWidth depth_raw : ℚ) / (2 * tanHalfDeg (m.fov.getD (7186 / 100))))

/-- Claim C4: on a config with no cached disparity scale factor, `depth`
computes `baseline * focal` (with the defaults of the source), stores exactly
that value in the config's `dispScaleFactor` field and changes no other
field; on a config whose `dispScaleFactor` is already set, `depth` uses the
cached value and returns the config unchanged. -/
theorem depth_scale_factor_cache (tanHalfDeg : ℚ → ℚ) (sent : Nat)
    (cmapF : Nat → Nat → Nat × Nat × Nat) (fr : GFrame) (m : PreviewManager) :
    (m.dispScaleFactor = none →
      PreviewDecoder.depth tanHalfDeg sent cmapF fr (some m) =
        .ok (PreviewDecoder.disparity_color cmapF
            (fr.map (List.map (PreviewDecoder.divScaleCast sent
              (computedScaleFactor tanHalfDeg fr m) m.dispMultiplier)))
            (some { m with dispScaleFactor := some (computedScaleFactor tanHalfDeg fr m) }),
          some { m with dispScaleFactor := some (computedScaleFactor tanHalfDeg fr m) })) ∧
    (∀ s, m.dispScaleFactor = some s →
      PreviewDecoder.depth tanHalfDeg sent cmapF fr (some m) =
        .ok (PreviewDecoder.disparity_color cmapF
            (fr.map (List.map (PreviewDecoder.divScaleCast sent s m.dispMultiplier)))
            (some m),
          some m)) := by
  constructor
  · intro h
    simp [PreviewDecoder.depth, h, computedScaleFactor]
  · intro s h
    simp [PreviewDecoder.depth, h]

/-- Claim C4 (witness): the cache theorem at a concrete one-sample frame, a
fresh config (cache miss, scale factor `75 * (1 / (2 * 1)) = 75/2` stored) and
a config carrying a cached factor `5` (returned unchanged). -/
theorem depth_scale_factor_cache_witness :
    (PreviewDecoder.depth (fun _ => 1) 9 (fun c v => (c, v, 0)) [[2]] (some {}) =
      .ok (PreviewDecoder.disparity_color (fun c v => (c, v, 0))
          ([[2]].map (List.map (PreviewDecoder.divScaleCast 9 (75 / 2) (255 / 96))))
          (some { dispScaleFactor := some (75 / 2) }),
        some { dispScaleFactor := some (75 / 2) })) ∧
    (PreviewDecoder.depth (fun _ => 1) 9 (fun c v => (c, v, 0)) [[2]]
        (some { dispScaleFactor := some 5 }) =
      .ok (PreviewDecoder.disparity_color (fun c v => (c, v, 0))
          ([[2]].map (List.map (PreviewDecoder.divScaleCast 9 5 (255 / 96))))
          (some { dispScaleFactor := some 5 }),
        some { dispScaleFactor := some 5 })) := by
  constructor
  · have h := (depth_scale_factor_cache (fun _ => 1) 9 (fun c v => (c, v, 0)) [[2]] {}).1 rfl
    have hc : computedScaleFactor (fun _ => 1) [[2]] {} = 75 / 2 := by
      simp [computedScaleFactor, frameWidth]
      norm_num
    rw [hc] at h
    exact h
  · exact (depth_scale_factor_cache (fun _ => 1) 9 (fun c v => (c, v, 0)) [[2]]
      { dispScaleFactor := some 5 }).2 5 rfl

/-- The sample of a 2D buffer at row `i`, column `j`, when both are in
bounds. -/
def sampleAt (fr : List (List α)) (i j : Nat) : Option α :=
  (fr[i]?).bind fun r => r[j]?

theorem sampleAt_map (g : α → β) (fr : List (List α)) (i j : Nat) :
    sampleAt (fr.map (List.map g)) i j = (sampleAt fr i j).map g := by
  unfold sampleAt
  rw [List.getElem?_map]
  cases fr[i]? with
  | none => rfl
  | some r => simp [List.getElem?_map]

/-- Claim C9: on a raw-depth frame containing a zero sample and any non-None
config, `depth` returns a result (it does not raise): the division by zero
yields the non-finite sentinel, which is scaled, truncated to the 8-bit
sentinel cast and color-mapped into the output at the same position. -/
theorem depth_zero_safe (tanHalfDeg : ℚ → ℚ) (sent : Nat)
    (cmapF : Nat → Nat → Nat × Nat × Nat) (fr : GFrame) (m : PreviewManager)
    (i j : Nat) (h : sampleAt fr i j = some 0) :
    ∃ out mgr, PreviewDecoder.depth tanHalfDeg sent cmapF fr (some m) =
      .ok (out, mgr) ∧ sampleAt out i j = some (cmapF m.colorMap sent) := by
  cases hds : m.dispScaleFactor with
  | some s =>
      exact ⟨PreviewDecoder.disparity_color cmapF
          (fr.map (List.map (PreviewDecoder.divScaleCast sent s m.dispMultiplier)))
          (some m),
        some m, by simp [PreviewDecoder.depth, hds],
        by simp [PreviewDecoder.disparity_color, sampleAt_map, h,
          PreviewDecoder.divScaleCast]⟩
  | none =>
      exact ⟨PreviewDecoder.disparity_color cmapF
          (fr.map (List.map (PreviewDecoder.divScaleCast sent
            (computedScaleFactor tanHalfDeg fr m) m.dispMultiplier)))
          (some { m with dispScaleFactor := some (computedScaleFactor tanHalfDeg fr m) }),
        some { m with dispScaleFactor := some (computedScaleFactor tanHalfDeg fr m) },
        by simp [PreviewDecoder.depth, hds, computedScaleFactor],
        by simp [PreviewDecoder.disparity_color, sampleAt_map, h,
          PreviewDecoder.divScaleCast]⟩

/-- Claim C9 (witness): the safety theorem at the one-sample zero frame
`[[0]]`, a default config, sentinel cast `9` and a concrete color map. -/
theorem depth_zero_safe_witness :
    ∃ out mgr,
      PreviewDecoder.depth (fun _ => 1) 9 (fun c v => (c, v, 0)) [[0]] (some {}) =
        .ok (out, mgr) ∧ sampleAt out 0 0 = some (2, 9, 0) :=
  depth_zero_safe (fun _ => 1) 9 (fun c v => (c, v, 0)) [[0]] {} 0 0 rfl

/-- Claim C10: calling `depth` with `manager = None` always fails: the cached
scale factor is read through `getattr` (tolerating `None`) and the division
succeeds, but `manager.dispMultiplier` is then read directly from `None`,
raising an `AttributeError`, for every raw-depth frame. -/
theorem depth_none_manager_attr_error (tanHalfDeg : ℚ → ℚ) (sent : Nat)
    (cmapF : Nat → Nat → Nat × Nat × Nat) (fr : GFrame) :
    PreviewDecoder.depth tanHalfDeg sent cmapF fr none =
      .error PreviewDecoder.attrErrMsg := rfl

/-- A frame handed to `MouseClickTracker.extract_value`, tagged by the number
of dimensions of the underlying `numpy` array (`len(frame.shape)`): `d2` for
single-channel frames, `d3` for 3-channel frames, `d4` for a
higher-dimensional array reaching the generic fallback branch.  Indexing
`frame[y][x]` outside the array is an uncaught access in the source (the spec
declares it undefined behavior), modelled here by a default sample. -/
inductive NDFrame where
  | d2 (rows : List (List Nat))
  | d3 (rows : List (List (Nat × Nat × Nat)))
  | d4 (rows : List (List (List (List Nat))))
  deriving DecidableEq, Repr

/-- `MouseClickTracker` state: the `points` map (selected coordinate per
frame name) and the `values` map (last formatted value string per name). -/
structure MouseClickTracker where
  points : String → Option (Nat × Nat)
  values : String → Option String

/-- The class-level empty dictionaries `points = {}` and `values = {}`. -/
def emptyTracker : MouseClickTracker :=
  { points := fun _ => none, values := fun _ => none }

/-- `cv2.EVENT_LBUTTONUP`. -/
def EVENT_LBUTTONUP : Nat := 4

namespace MouseClickTracker

/-- The callback returned by `MouseClickTracker.select_point(name)`, applied
to a mouse event at `(x, y)` (the unused `flags`/`param` arguments are
omitted): on `cv2.EVENT_LBUTTONUP`, if `self.points.get(name) == (x, y)` then
`del self.points[name]` and, when present, `del self.values[name]`;
otherwise `self.points[name] = (x, y)`. -/
def select_point (name : String) (event : Nat) (x y : Nat)
    (self : MouseClickTracker) : MouseClickTracker :=
  if event = EVENT_LBUTTONUP then
    if self.points name = some (x, y) then
      { points := fun n => if n = name then none else self.points n,
        values := fun n => if n = name then none else self.values n }
    else
      { self with points := fun n => if n = name then some (x, y) else self.points n }
  else self

/-- The `str(...)` rendering of the `numpy` sample `frame[y][x]`, as
interpolated by the `format` calls of `extract_value`.  Scalar and vector
renderings are modelled by `toString` without column padding. -/
def npSampleStr (frame : NDFrame) (x y : Nat) : String :=
  match frame with
  | .d2 rows => toString ((rows.getD y []).getD x 0)
  | .d3 rows =>
      let p := (rows.getD y []).getD x (0, 0, 0)
      "[" ++ toString p.1 ++ " " ++ toString p.2.1 ++ " " ++ toString p.2.2 ++ "]"
  | .d4 rows => toString ((rows.getD y []).getD x [])

/-- The value string `extract_value` formats for `name` from `frame[y][x]`:
a string ending in `mm` for the depth kinds, in `px` for the disparity
kinds, then by array rank: the R,G,B rendering with the channels of the
stored pixel reversed for a 3D frame, the `Gray:` rendering for a 2D frame,
and the generic `str(...)` rendering otherwise. -/
def fmtSample (name : String) (frame : NDFrame) (x y : Nat) : String :=
  if name = "depth_raw" ∨ name = "depth" then
    npSampleStr frame x y ++ "mm"
  else if name = "disparity_color" ∨ name = "disparity" then
    npSampleStr frame x y ++ "px"
  else
    match frame with
    | .d3 rows =>
        let p := (rows.getD y []).getD x (0, 0, 0)
        "R:" ++ toString p.2.2 ++ ",G:" ++ toString p.2.1 ++ ",B:" ++ toString p.1
    | .d2 rows => "Gray:" ++ toString ((rows.getD y []).getD x 0)
    | .d4 rows => toString ((rows.getD y []).getD x [])

/-- `MouseClickTracker.extract_value(name, frame)`: if `self.points` holds a
coordinate `(x, y)` for `name`, store the formatted sample read at row `y`,
column `x` under `name` in `self.values`; otherwise do nothing. -/
def extract_value (name : String) (frame : NDFrame)
    (self : MouseClickTracker) : MouseClickTracker :=
  match self.points name with
  | none => self
  | some (x, y) =>
      { self with values := fun n =>
          if n = name then some (fmtSample name frame x y) else self.values n }

end MouseClickTracker

theorem MouseClickTracker.extract_value_points (name : String) (frame : NDFrame)
    (self : MouseClickTracker) :
    (MouseClickTracker.extract_value name frame self).points = self.points := by
  unfold MouseClickTracker.extract_value
  rcases h : self.points name with _ | ⟨x, y⟩ <;> simp

/-- Concrete tracker state in which the coordinate `(3, 4)` is already
selected for the `color` frame. -/
def mctSel : MouseClickTracker :=
  { points := fun n => if n = "color" then some (3, 4) else none,
    values := fun _ => none }

/-- Claim C6 (counterexample): from a state in which `(3, 4)` is already the
stored coordinate for `color`, two successive left-button-release clicks at
`(3, 4)` toggle the selection off and then back on, leaving a stored
coordinate — not the empty selection the claim asserts for every state. -/
theorem double_click_cex :
    (MouseClickTracker.select_point "color" EVENT_LBUTTONUP 3 4
        (MouseClickTracker.select_point "color" EVENT_LBUTTONUP 3 4
          mctSel)).points "color" = some (3, 4) ∧
    (MouseClickTracker.select_point "color" EVENT_LBUTTONUP 3 4
        (MouseClickTracker.select_point "color" EVENT_LBUTTONUP 3 4
          mctSel)).points "color" ≠ none := by
  exact ⟨rfl, by decide⟩

/-- Claim C6 (amended): from any state whose stored coordinate for `name` is
not already `(x, y)`, two successive left-button-release clicks at `(x, y)`
leave the tracker with no stored coordinate and no stored value for `name`,
whether or not `extract_value` ran (on any frame) between the clicks. -/
theorem double_click_toggle_off (st : MouseClickTracker) (name : String)
    (x y : Nat) (doExtract : Bool) (frame : NDFrame)
    (h : st.points name ≠ some (x, y)) :
    (MouseClickTracker.select_point name EVENT_LBUTTONUP x y
      ((if doExtract then MouseClickTracker.extract_value name frame else id)
        (MouseClickTracker.select_point name EVENT_LBUTTONUP x y st))).points name
      = none ∧
    (MouseClickTracker.select_point name EVENT_LBUTTONUP x y
      ((if doExtract then MouseClickTracker.extract_value name frame else id)
        (MouseClickTracker.select_point name EVENT_LBUTTONUP x y st))).values name
      = none := by
  set st1 := MouseClickTracker.select_point name EVENT_LBUTTONUP x y st with hst1
  set st2 := (if doExtract then MouseClickTracker.extract_value name frame else id) st1
    with hst2
  have h1 : st1.points name = some (x, y) := by
    rw [hst1]
    simp [MouseClickTracker.select_point, h]
  have h2 : st2.points name = some (x, y) := by
    rw [hst2]
    cases doExtract with
    | false => simpa using h1
    | true => simpa [MouseClickTracker.extract_value_points] using h1
  constructor <;> simp [MouseClickTracker.select_point, h2]

/-- Claim C6 (witness): the amended toggle theorem from the empty tracker at
name `left`, coordinate `(1, 2)`, with an `extract_value` call in between. -/
theorem double_click_toggle_off_witness :
    (MouseClickTracker.select_point "left" EVENT_LBUTTONUP 1 2
      ((if true then MouseClickTracker.extract_value "left" (.d2 [[5]]) else id)
        (MouseClickTracker.select_point "left" EVENT_LBUTTONUP 1 2
          emptyTracker))).points "left" = none ∧
    (MouseClickTracker.select_point "left" EVENT_LBUTTONUP 1 2
      ((if true then MouseClickTracker.extract_value "left" (.d2 [[5]]) else id)
        (MouseClickTracker.select_point "left" EVENT_LBUTTONUP 1 2
          emptyTracker))).values "left" = none :=
  double_click_toggle_off emptyTracker "left" 1 2 true (.d2 [[5]])
    (fun hc => Option.noConfusion hc)

/-- Claim C7: `extract_value` is a no-op when no coordinate is stored for
`name`; when `(x, y)` is stored it leaves the point map unchanged and
overwrites only the value of `name` with the sample read at row `y`,
column `x`, formatted by kind — a string ending in `mm` for the depth kinds,
ending in `px` for the disparity kinds, the channel-reversed `R:`,`G:`,`B:`
string for 3-dimensional frames, the `Gray:` scalar string for 2-dimensional
frames, and the generic `str(...)` fallback otherwise. -/
theorem extract_value_spec (st : MouseClickTracker) (name : String) (f : NDFrame) :
    (st.points name = none → MouseClickTracker.extract_value name f st = st) ∧
    (∀ x y, st.points name = some (x, y) →
      MouseClickTracker.extract_value name f st =
        { st with values := fun n =>
            if n = name then some (MouseClickTracker.fmtSample name f x y)
            else st.values n }) ∧
    (∀ x y,
      ((name = "depth_raw" ∨ name = "depth") →
        MouseClickTracker.fmtSample name f x y =
          MouseClickTracker.npSampleStr f x y ++ "mm") ∧
      ((name = "disparity_color" ∨ name = "disparity") →
        MouseClickTracker.fmtSample name f x y =
          MouseClickTracker.npSampleStr f x y ++ "px") ∧
      (name ∉ (["depth_raw", "depth", "disparity_color", "disparity"] : List String) →
        (∀ rows, f = NDFrame.d3 rows →
          MouseClickTracker.fmtSample name f x y =
            "R:" ++ toString ((rows.getD y []).getD x (0, 0, 0)).2.2 ++
            ",G:" ++ toString ((rows.getD y []).getD x (0, 0, 0)).2.1 ++
            ",B:" ++ toString ((rows.getD y []).getD x (0, 0, 0)).1) ∧
        (∀ rows, f = NDFrame.d2 rows →
          MouseClickTracker.fmtSample name f x y =
            "Gray:" ++ toString ((rows.getD y []).getD x 0)) ∧
        (∀ rows, f = NDFrame.d4 rows →
          MouseClickTracker.fmtSample name f x y =
            toString ((rows.getD y []).getD x [])))) := by
  refine ⟨?_, ?_, ?_⟩
  · intro h
    simp [MouseClickTracker.extract_value, h]
  · intro x y h
    simp [MouseClickTracker.extract_value, h]
  · intro x y
    refine ⟨?_, ?_, ?_⟩
    · intro h
      simp [MouseClickTracker.fmtSample, h]
    · rintro (rfl | rfl) <;> simp [MouseClickTracker.fmtSample]
    · intro hmem
      have h1 : ¬(name = "depth_raw" ∨ name = "depth") := by
        rintro (rfl | rfl) <;> simp at hmem
      have h2 : ¬(name = "disparity_color" ∨ name = "disparity") := by
        rintro (rfl | rfl) <;> simp at hmem
      refine ⟨?_, ?_, ?_⟩ <;> rintro rows rfl <;>
        simp [MouseClickTracker.fmtSample, h1, h2]

/-- Concrete tracker state in which the coordinate `(0, 1)` is selected for
the `depth_raw` frame. -/
def mctDepthSel : MouseClickTracker :=
  { points := fun n => if n = "depth_raw" then some (0, 1) else none,
    values := fun _ => none }

/-- Claim C7 (witness): extracting on a concrete 2D frame with `(0, 1)`
stored for `depth_raw` overwrites only that value, and the stored string
carries the `mm` suffix. -/
theorem extract_value_spec_witness :
    (MouseClickTracker.extract_value "depth_raw" (.d2 [[3], [7]]) mctDepthSel =
      { mctDepthSel with values := fun n =>
          if n = "depth_raw"
          then (some (MouseClickTracker.fmtSample "depth_raw" (.d2 [[3], [7]]) 0 1))
          else mctDepthSel.values n }) ∧
    MouseClickTracker.fmtSample "depth_raw" (.d2 [[3], [7]]) 0 1 =
      MouseClickTracker.npSampleStr (.d2 [[3], [7]]) 0 1 ++ "mm" :=
  ⟨(extract_value_spec mctDepthSel "depth_raw" (.d2 [[3], [7]])).2.1 0 1 rfl,
   ((extract_value_spec mctDepthSel "depth_raw" (.d2 [[3], [7]])).2.2 0 1).1
     (Or.inl rfl)⟩

/-- An event in the life of a `MouseClickTracker`: a mouse-callback
invocation (any event code) for a registered name, or an `extract_value`
call. -/
inductive TEvent where
  | click (name : String) (event x y : Nat)
  | extract (name : String) (frame : NDFrame)
  deriving DecidableEq

/-- One event applied to a tracker state. -/
def stepEvent (st : MouseClickTracker) : TEvent → MouseClickTracker
  | .click n ev x y => MouseClickTracker.select_point n ev x y st
  | .extract n f => MouseClickTracker.extract_value n f st

/-- The tracker state reached from the empty initial state (`points = {}`,
`values = {}`) by a sequence of events. -/
def runTrace (tr : List TEvent) : MouseClickTracker :=
  tr.foldl stepEvent emptyTracker

theorem runTrace_append (tr : List TEvent) (e : TEvent) :
    runTrace (tr ++ [e]) = stepEvent (runTrace tr) e := by
  simp [runTrace, List.foldl_append]

/-- Frame used by the Claim C8 counterexample trace. -/
def frameCex : NDFrame := .d2 [[1, 2], [3, 4]]

/-- Claim C8 counterexample trace: select `(0, 0)` for `color`, extract a
value there, then move the selection to `(1, 1)`. -/
def traceCex : List TEvent :=
  [.click "color" EVENT_LBUTTONUP 0 0, .extract "color" frameCex,
   .click "color" EVENT_LBUTTONUP 1 1]

/-- Claim C8 (counterexample): after the trace `traceCex` the value stored
for `color` is the one extracted at the previously selected `(0, 0)`
(the string for sample `1`), while the currently stored coordinate is
`(1, 1)` (whose sample would format as the string for `4`): the stored value
is not the one extracted at the currently stored coordinate. -/
theorem tracker_invariant_cex :
    ((runTrace traceCex).values "color").isSome ∧
    ¬ ∃ e ∈ traceCex, ∃ f, e = TEvent.extract "color" f ∧
        ∃ x y, (runTrace traceCex).points "color" = some (x, y) ∧
          (runTrace traceCex).values "color" =
            some (MouseClickTracker.fmtSample "color" f x y) := by
  constructor
  · rfl
  · rintro ⟨e, he, f, rfl, x, y, hp, hv⟩
    have hf : f = frameCex := by
      simp [traceCex] at he
      exact he
    subst hf
    have h1 : (runTrace traceCex).points "color" = some (1, 1) := by rfl
    rw [h1] at hp
    have hx : x = 1 ∧ y = 1 := by
      have := hp.symm
      simp at this
      exact this
    obtain ⟨rfl, rfl⟩ := hx
    have h2 : (runTrace traceCex).values "color" = some "Gray:1" := by rfl
    rw [h2] at hv
    have h3 : MouseClickTracker.fmtSample "color" frameCex 1 1 = "Gray:4" := by rfl
    rw [h3] at hv
    exact absurd hv (by decide)

/-- Claim C8 (amended): in every tracker state reachable from the empty
initial state by click events and `extract_value` calls, a name appears in
the value map only if it also appears in the point map, and the stored value
string is the one produced by the per-kind formatter from the frame of some
`extract_value` call of the history, read at the coordinate that was stored
for the name when that call ran — not necessarily the currently stored
coordinate. -/
theorem tracker_value_invariant (tr : List TEvent) (name : String)
    (h : ((runTrace tr).values name).isSome) :
    ((runTrace tr).points name).isSome ∧
    ∃ pre f post, tr = pre ++ TEvent.extract name f :: post ∧
      ∃ x y, (runTrace pre).points name = some (x, y) ∧
        (runTrace tr).values name = some (MouseClickTracker.fmtSample name f x y) := by
  induction tr using List.reverseRecOn with
  | nil => simp [runTrace, emptyTracker] at h
  | append_singleton tr e ih =>
      rw [runTrace_append] at h ⊢
      cases e with
      | click n ev x y =>
          by_cases hev : ev = EVENT_LBUTTONUP
          · by_cases hpt : (runTrace tr).points n = some (x, y)
            · by_cases hnm : name = n
              · subst hnm
                simp [stepEvent, MouseClickTracker.select_point, hev, hpt] at h
              · have hv : (MouseClickTracker.select_point n ev x y (runTrace tr)).values
                    name = (runTrace tr).values name := by
                  simp [MouseClickTracker.select_point, hev, hpt, hnm]
                have hp : (MouseClickTracker.select_point n ev x y (runTrace tr)).points
                    name = (runTrace tr).points name := by
                  simp [MouseClickTracker.select_point, hev, hpt, hnm]
                rw [stepEvent, hv] at h ⊢
                obtain ⟨h1, pre, f, post, htr, x', y', hpre, hval⟩ := ih h
                exact ⟨by rw [hp]; exact h1, pre, f, post ++ [TEvent.click n ev x y],
                  by rw [htr]; simp, x', y', hpre, hval⟩
            · have hv : (MouseClickTracker.select_point n ev x y (runTrace tr)).values
                  name = (runTrace tr).values name := by
                simp [MouseClickTracker.select_point, hev, hpt]
              rw [stepEvent, hv] at h ⊢
              obtain ⟨h1, pre, f, post, htr, x', y', hpre, hval⟩ := ih h
              refine ⟨?_, pre, f, post ++ [TEvent.click n ev x y],
                by rw [htr]; simp, x', y', hpre, hval⟩
              by_cases hnm : name = n
              · subst hnm
                simp [MouseClickTracker.select_point, hev, hpt]
              · simpa [MouseClickTracker.select_point, hev, hpt, hnm] using h1
          · have hid : MouseClickTracker.select_point n ev x y (runTrace tr) =
                runTrace tr := by
              simp [MouseClickTracker.select_point, hev]
            rw [stepEvent, hid] at h ⊢
            obtain ⟨h1, pre, f, post, htr, x', y', hpre, hval⟩ := ih h
            exact ⟨h1, pre, f, post ++ [TEvent.click n ev x y],
              by rw [htr]; simp, x', y', hpre, hval⟩
      | extract n f =>
          rcases hpt : (runTrace tr).points n with _ | ⟨px, py⟩
          · have hid : MouseClickTracker.extract_value n f (runTrace tr) =
                runTrace tr := by
              simp [MouseClickTracker.extract_value, hpt]
            rw [stepEvent, hid] at h ⊢
            obtain ⟨h1, pre, f', post, htr, x', y', hpre, hval⟩ := ih h
            exact ⟨h1, pre, f', post ++ [TEvent.extract n f],
              by rw [htr]; simp, x', y', hpre, hval⟩
          · by_cases hnm : name = n
            · subst hnm
              refine ⟨?_, tr, f, [], rfl, px, py, hpt, ?_⟩
              · rw [stepEvent, MouseClickTracker.extract_value_points, hpt]
                rfl
              · rw [stepEvent]
                simp [MouseClickTracker.extract_value, hpt]
            · have hv : (MouseClickTracker.extract_value n f (runTrace tr)).values
                  name = (runTrace tr).values name := by
                simp [MouseClickTracker.extract_value, hpt, hnm]
              rw [stepEvent, hv] at h ⊢
              obtain ⟨h1, pre, f', post, htr, x', y', hpre, hval⟩ := ih h
              refine ⟨?_, pre, f', post ++ [TEvent.extract n f],
                by rw [htr]; simp, x', y', hpre, hval⟩
              rw [MouseClickTracker.extract_value_points]
              exact h1

/-- Trace used by the Claim C8 witness: select `(0, 0)` for `a`, then
extract a value there. -/
def traceW : List TEvent :=
  [.click "a" EVENT_LBUTTONUP 0 0, .extract "a" (.d2 [[2]])]

/-- Claim C8 (witness): the amended invariant applied to the concrete trace
`traceW`, whose final state stores a value for `a`. -/
theorem tracker_value_invariant_witness :
    ((runTrace traceW).points "a").isSome ∧
    ∃ pre f post, traceW = pre ++ TEvent.extract "a" f :: post ∧
      ∃ x y, (runTrace pre).points "a" = some (x, y) ∧
        (runTrace traceW).values "a" = some (MouseClickTracker.fmtSample "a" f x y) :=
  tracker_value_invariant traceW "a" (by rfl)
